import Mathlib

/-!
# MultiConn: a fan-out connection adapter

A shallow embedding of `pkg/backends/statsdaemon/multi_conn.go`.

* A `net.Conn` handle is a `Conn` (its identity); what a connection does when
  one of its methods is called is decided by the network environment `Net σ`,
  a collection of state-passing functions over an arbitrary world state `σ`.
* A Go `error` is `Option String`: `none` is `nil`, `some s` is an error whose
  `Error()` text is `s`.
* A Go `int` is an `Int` within the 64-bit range (the width of `int` on a
  64-bit platform); `+=` on it wraps around (`wrapInt`).
* Every method of `MultiConn` returns, next to its Go results, the list of
  calls it issued on the environment (with each call's outcome), the lines it
  handed to the logger and the world it leaves.
* Every method is checked against what the environment answers when it is
  called once for each upstream, in upstream order (`callEach`): the calls the
  method made and the world it leaves are those of this reference, and its
  results are stated in terms of the answers of the reference.
-/

namespace Statsdaemon

/-! ## Go primitives -/

/-- Contents of a Go byte slice. -/
abbrev Bytes := List UInt8

/-- A Go error value: nil, or the text of its Error method. -/
abbrev GoError := Option String

/-- Identity of a connection handle. -/
abbrev Conn := Nat

/-- The text of a network address. -/
abbrev Addr := String

/-- An instant (time.Time) or a duration (time.Duration), in nanoseconds. -/
abbrev Time := Int

/-- Reduction of an integer to the range of a 64-bit Go int. -/
def wrapInt (x : Int) : Int :=
  (x + 9223372036854775808) % 18446744073709551616 - 9223372036854775808

/-- The join of the standard library: the elements separated by sep. -/
def stringsJoin : List String → String → String
  | [], _ => ""
  | [a], _ => a
  | a :: b :: rest, sep => a ++ sep ++ stringsJoin (b :: rest) sep

/-- The network environment: the outcome of every call the adapter makes on
the dialer and on a connection, as a function of the world state. -/
structure Net (σ : Type) where
  DialTimeout : String → String → Time → σ → Except String Conn × σ
  Read : Conn → Bytes → σ → (Bytes × Int × GoError) × σ
  Write : Conn → Bytes → σ → (Int × GoError) × σ
  LocalAddr : Conn → σ → Addr × σ
  RemoteAddr : Conn → σ → Addr × σ
  SetDeadline : Conn → Time → σ → GoError × σ
  SetReadDeadline : Conn → Time → σ → GoError × σ
  SetWriteDeadline : Conn → Time → σ → GoError × σ
  Close : Conn → σ → GoError × σ

/-- The adapter: the ordered upstream connections. -/
structure MultiConn where
  upstreams : List Conn
deriving DecidableEq, Repr

/-! ## Write -/

/-- One call of Write on an upstream, with what it returned. -/
structure WriteCall where
  conn : Conn
  b : Bytes
  writen : Int
  err : GoError
deriving DecidableEq, Repr

/-- The variables of the loop of Write. -/
structure WriteLoop (σ : Type) where
  world : σ
  writenRet : Int
  errs : List String
  calls : List WriteCall

/-- The loop of Write over the upstreams. -/
def writeLoop {σ : Type} (net : Net σ) (b : Bytes) : List Conn → WriteLoop σ → WriteLoop σ
  | [], s => s
  | conn :: rest, s =>
    match net.Write conn b s.world with
    | ((writen, err), w) =>
      let errs := match err with
        | some e => s.errs ++ [e]
        | none => s.errs
      writeLoop net b rest
        { world := w
          writenRet := wrapInt (s.writenRet + writen)
          errs := errs
          calls := s.calls ++ [{ conn := conn, b := b, writen := writen, err := err }] }

/-- What Write returns and does. -/
structure WriteResult (σ : Type) where
  n : Int
  err : GoError
  log : List String
  calls : List WriteCall
  world : σ

/-- The method Write of MultiConn. -/
def MultiConn.Write {σ : Type} (net : Net σ) (mcon : MultiConn) (b : Bytes) (w : σ) : WriteResult σ :=
  let s := writeLoop net b mcon.upstreams { world := w, writenRet := 0, errs := [], calls := [] }
  if s.errs.length = mcon.upstreams.length then
    { n := s.writenRet
      err := some ("error writing to all upstreams: " ++ stringsJoin s.errs "; ")
      log := []
      calls := s.calls
      world := s.world }
  else
    { n := s.writenRet
      err := none
      log := if s.errs.length > 0 then
          ["error writing to upstreams: " ++ stringsJoin s.errs "; "]
        else []
      calls := s.calls
      world := s.world }

/-! ## Read -/

/-- One call of Read on an upstream, with what it returned. -/
structure ReadCall where
  conn : Conn
  buf : Bytes
  read : Int
  err : GoError
deriving DecidableEq, Repr

/-- The variables of the loop of Read. -/
structure ReadLoop (σ : Type) where
  world : σ
  retRead : Int
  errs : List String
  calls : List ReadCall

/-- The loop of Read over the upstreams. -/
def readLoop {σ : Type} (net : Net σ) : List Conn → ReadLoop σ → ReadLoop σ
  | [], s => s
  | conn :: rest, s =>
    let buf : Bytes := []
    match net.Read conn buf s.world with
    | ((_, read, err), w) =>
      let calls := s.calls ++ [{ conn := conn, buf := buf, read := read, err := err }]
      match err with
      | some e =>
        readLoop net rest
          { world := w, retRead := s.retRead, errs := s.errs ++ [e], calls := calls }
      | none =>
        readLoop net rest
          { world := w, retRead := read, errs := s.errs, calls := calls }

/-- What Read returns and does; b is the content of the buffer of the caller
when Read returns. -/
structure ReadResult (σ : Type) where
  n : Int
  err : GoError
  b : Bytes
  calls : List ReadCall
  world : σ

/-- The method Read of MultiConn. -/
def MultiConn.Read {σ : Type} (net : Net σ) (mcon : MultiConn) (b : Bytes) (w : σ) : ReadResult σ :=
  let s := readLoop net mcon.upstreams { world := w, retRead := 0, errs := [], calls := [] }
  if s.errs.length > 0 then
    { n := s.retRead
      err := some ("error reading from upstreams: " ++ stringsJoin s.errs "; ")
      b := b
      calls := s.calls
      world := s.world }
  else
    { n := s.retRead, err := none, b := b, calls := s.calls, world := s.world }

/-! ## LocalAddr and RemoteAddr -/

/-- The run-time fault of indexing a slice out of its range. -/
inductive Panic where
  | indexOutOfRange (index length : Nat)
deriving DecidableEq, Repr

/-- The method LocalAddr of MultiConn. -/
def MultiConn.LocalAddr {σ : Type} (net : Net σ) (mcon : MultiConn) (w : σ) : Except Panic (Addr × σ) :=
  match mcon.upstreams[0]? with
  | some conn => .ok (net.LocalAddr conn w)
  | none => .error (.indexOutOfRange 0 mcon.upstreams.length)

/-- The method RemoteAddr of MultiConn. -/
def MultiConn.RemoteAddr {σ : Type} (net : Net σ) (mcon : MultiConn) (w : σ) : Except Panic (Addr × σ) :=
  match mcon.upstreams[0]? with
  | some conn => .ok (net.RemoteAddr conn w)
  | none => .error (.indexOutOfRange 0 mcon.upstreams.length)

/-! ## Deadlines -/

/-- One call of a deadline setter on an upstream, with what it returned. -/
structure DeadlineCall where
  conn : Conn
  t : Time
  err : GoError
deriving DecidableEq, Repr

/-- The variables of the loop of a deadline setter. -/
structure DeadlineLoop (σ : Type) where
  world : σ
  errs : List String
  calls : List DeadlineCall

/-- What a deadline setter returns and does. -/
structure DeadlineResult (σ : Type) where
  err : GoError
  calls : List DeadlineCall
  world : σ

/-- The loop of SetDeadline over the upstreams. -/
def setDeadlineLoop {σ : Type} (net : Net σ) (t : Time) : List Conn → DeadlineLoop σ → DeadlineLoop σ
  | [], s => s
  | conn :: rest, s =>
    match net.SetDeadline conn t s.world with
    | (err, w) =>
      let errs := match err with
        | some e => s.errs ++ [e]
        | none => s.errs
      setDeadlineLoop net t rest
        { world := w, errs := errs, calls := s.calls ++ [{ conn := conn, t := t, err := err }] }

/-- The method SetDeadline of MultiConn. -/
def MultiConn.SetDeadline {σ : Type} (net : Net σ) (mcon : MultiConn) (t : Time) (w : σ) : DeadlineResult σ :=
  let s := setDeadlineLoop net t mcon.upstreams { world := w, errs := [], calls := [] }
  if s.errs.length > 0 then
    { err := some ("error seting deadline on streams: " ++ stringsJoin s.errs "; ")
      calls := s.calls
      world := s.world }
  else
    { err := none, calls := s.calls, world := s.world }

/-- The loop of SetReadDeadline over the upstreams. -/
def setReadDeadlineLoop {σ : Type} (net : Net σ) (t : Time) : List Conn → DeadlineLoop σ → DeadlineLoop σ
  | [], s => s
  | conn :: rest, s =>
    match net.SetReadDeadline conn t s.world with
    | (err, w) =>
      let errs := match err with
        | some e => s.errs ++ [e]
        | none => s.errs
      setReadDeadlineLoop net t rest
        { world := w, errs := errs, calls := s.calls ++ [{ conn := conn, t := t, err := err }] }

/-- The method SetReadDeadline of MultiConn. -/
def MultiConn.SetReadDeadline {σ : Type} (net : Net σ) (mcon : MultiConn) (t : Time) (w : σ) : DeadlineResult σ :=
  let s := setReadDeadlineLoop net t mcon.upstreams { world := w, errs := [], calls := [] }
  if s.errs.length > 0 then
    { err := some ("error setting read deadline on upstreams: " ++ stringsJoin s.errs "; ")
      calls := s.calls
      world := s.world }
  else
    { err := none, calls := s.calls, world := s.world }

/-- The loop of SetWriteDeadline over the upstreams. -/
def setWriteDeadlineLoop {σ : Type} (net : Net σ) (t : Time) : List Conn → DeadlineLoop σ → DeadlineLoop σ
  | [], s => s
  | conn :: rest, s =>
    match net.SetWriteDeadline conn t s.world with
    | (err, w) =>
      let errs := match err with
        | some e => s.errs ++ [e]
        | none => s.errs
      setWriteDeadlineLoop net t rest
        { world := w, errs := errs, calls := s.calls ++ [{ conn := conn, t := t, err := err }] }

/-- The method SetWriteDeadline of MultiConn. -/
def MultiConn.SetWriteDeadline {σ : Type} (net : Net σ) (mcon : MultiConn) (t : Time) (w : σ) : DeadlineResult σ :=
  let s := setWriteDeadlineLoop net t mcon.upstreams { world := w, errs := [], calls := [] }
  if s.errs.length > 0 then
    { err := some ("error setting wriet deadline on upstreams: " ++ stringsJoin s.errs "; ")
      calls := s.calls
      world := s.world }
  else
    { err := none, calls := s.calls, world := s.world }

/-! ## Close -/

/-- One call of Close on an upstream, with what it returned. -/
structure CloseCall where
  conn : Conn
  err : GoError
deriving DecidableEq, Repr

/-- The variables of the loop of Close. -/
structure CloseLoop (σ : Type) where
  world : σ
  errs : List String
  calls : List CloseCall

/-- What Close returns and does. -/
structure CloseResult (σ : Type) where
  err : GoError
  calls : List CloseCall
  world : σ

/-- The loop of Close over the upstreams. -/
def closeLoop {σ : Type} (net : Net σ) : List Conn → CloseLoop σ → CloseLoop σ
  | [], s => s
  | conn :: rest, s =>
    match net.Close conn s.world with
    | (err, w) =>
      let errs := match err with
        | some e => s.errs ++ [e]
        | none => s.errs
      closeLoop net rest
        { world := w, errs := errs, calls := s.calls ++ [{ conn := conn, err := err }] }

/-- The method Close of MultiConn. -/
def MultiConn.Close {σ : Type} (net : Net σ) (mcon : MultiConn) (w : σ) : CloseResult σ :=
  let s := closeLoop net mcon.upstreams { world := w, errs := [], calls := [] }
  if s.errs.length > 0 then
    { err := some ("error closing upstreams: " ++ stringsJoin s.errs "; ")
      calls := s.calls
      world := s.world }
  else
    { err := none, calls := s.calls, world := s.world }

/-! ## MultiDialTimeout -/

/-- One call of the dialer, with what it returned. -/
structure DialCall where
  proto : String
  address : String
  timeout : Time
  result : Except String Conn

/-- The connection of a dial that succeeded. -/
def DialCall.conn? (d : DialCall) : Option Conn :=
  match d.result with
  | .ok conn => some conn
  | .error _ => none

/-- The variables of the loop of MultiDialTimeout. -/
structure DialLoop (σ : Type) where
  world : σ
  upstreams : List Conn
  log : List String
  calls : List DialCall

/-- The loop of MultiDialTimeout over the addresses. -/
def dialLoop {σ : Type} (net : Net σ) (proto : String) (timeout : Time) :
    List String → DialLoop σ → DialLoop σ
  | [], s => s
  | address :: rest, s =>
    match net.DialTimeout proto address timeout s.world with
    | (result, w) =>
      let calls := s.calls ++
        [{ proto := proto, address := address, timeout := timeout, result := result }]
      match result with
      | .error err =>
        dialLoop net proto timeout rest
          { world := w
            upstreams := s.upstreams
            log := s.log ++ ["can't connect to " ++ address ++ ": " ++ err]
            calls := calls }
      | .ok conn =>
        dialLoop net proto timeout rest
          { world := w, upstreams := s.upstreams ++ [conn], log := s.log, calls := calls }

/-- What MultiDialTimeout returns and does. -/
structure DialResult (σ : Type) where
  mcon : MultiConn
  err : GoError
  log : List String
  calls : List DialCall
  world : σ

/-- The constructor MultiDialTimeout. -/
def MultiDialTimeout {σ : Type} (net : Net σ) (proto : String) (addresses : List String)
    (timeout : Time) (w : σ) : DialResult σ :=
  let s := dialLoop net proto timeout addresses
    { world := w, upstreams := [], log := [], calls := [] }
  let log := if s.upstreams.length ≠ addresses.length then
      s.log ++ ["only " ++ toString s.upstreams.length ++ " of " ++
        toString addresses.length ++ " upstreams connected"]
    else s.log
  { mcon := { upstreams := s.upstreams }, err := none, log := log, calls := s.calls
    world := s.world }

/-! ## What the upstreams answer

The reference against which the methods are checked. It is written from the
words of the specification (every upstream is attempted, independently and in
order), not from the code: the operation is called on the environment once for
each element of the list, in the order of the list, each call starting from
the world the call before it left. The result is the list of these calls with
what the environment answered, and the world after the last of them. -/

/-- The environment called once for each element, in order. -/
def callEach {ι σ α β : Type} (f : ι → σ → α × σ) (record : ι → α → β) :
    List ι → σ → List β × σ
  | [], w => ([], w)
  | x :: rest, w =>
    (record x (f x w).1 :: (callEach f record rest (f x w).2).1,
      (callEach f record rest (f x w).2).2)

/-- What the upstreams answer to one Write of b each. -/
def writeEach {σ : Type} (net : Net σ) (b : Bytes) : List Conn → σ → List WriteCall × σ :=
  callEach (fun conn => net.Write conn b)
    (fun conn r => { conn := conn, b := b, writen := r.1, err := r.2 })

/-- What the upstreams answer to one Read into an empty buffer each. -/
def readEach {σ : Type} (net : Net σ) : List Conn → σ → List ReadCall × σ :=
  callEach (fun conn => net.Read conn [])
    (fun conn r => { conn := conn, buf := [], read := r.2.1, err := r.2.2 })

/-- What the upstreams answer to one SetDeadline of t each. -/
def setDeadlineEach {σ : Type} (net : Net σ) (t : Time) :
    List Conn → σ → List DeadlineCall × σ :=
  callEach (fun conn => net.SetDeadline conn t)
    (fun conn r => { conn := conn, t := t, err := r })

/-- What the upstreams answer to one SetReadDeadline of t each. -/
def setReadDeadlineEach {σ : Type} (net : Net σ) (t : Time) :
    List Conn → σ → List DeadlineCall × σ :=
  callEach (fun conn => net.SetReadDeadline conn t)
    (fun conn r => { conn := conn, t := t, err := r })

/-- What the upstreams answer to one SetWriteDeadline of t each. -/
def setWriteDeadlineEach {σ : Type} (net : Net σ) (t : Time) :
    List Conn → σ → List DeadlineCall × σ :=
  callEach (fun conn => net.SetWriteDeadline conn t)
    (fun conn r => { conn := conn, t := t, err := r })

/-- What the upstreams answer to one Close each. -/
def closeEach {σ : Type} (net : Net σ) : List Conn → σ → List CloseCall × σ :=
  callEach (fun conn => net.Close conn) (fun conn r => { conn := conn, err := r })

/-- What the dialer answers to one dial of each address. -/
def dialEach {σ : Type} (net : Net σ) (proto : String) (timeout : Time) :
    List String → σ → List DialCall × σ :=
  callEach (fun address => net.DialTimeout proto address timeout)
    (fun address r => { proto := proto, address := address, timeout := timeout, result := r })

/-! ## Sample environments -/

/-- The environment in which every call succeeds at once: reads and writes
move no bytes, every address dials to connection 0. -/
def okNet : Net Unit where
  DialTimeout := fun _ _ _ w => (.ok 0, w)
  Read := fun _ buf w => ((buf, 0, none), w)
  Write := fun _ _ w => ((0, none), w)
  LocalAddr := fun _ w => ("", w)
  RemoteAddr := fun _ w => ("", w)
  SetDeadline := fun _ _ w => (none, w)
  SetReadDeadline := fun _ _ w => (none, w)
  SetWriteDeadline := fun _ _ w => (none, w)
  Close := fun _ w => (none, w)

/-- A stateless environment given by the outcome of Write on each connection. -/
def writeNet (f : Conn → Int × GoError) : Net Unit :=
  { okNet with Write := fun conn _ w => (f conn, w) }

/-- A stateless environment given by the outcome of Read on each connection. -/
def readNet (f : Conn → Int × GoError) : Net Unit :=
  { okNet with Read := fun conn buf w => ((buf, f conn), w) }

/-- A stateless environment given by the outcome of the deadline setters on
each connection. -/
def deadlineNet (f : Conn → GoError) : Net Unit :=
  { okNet with
    SetDeadline := fun conn _ w => (f conn, w)
    SetReadDeadline := fun conn _ w => (f conn, w)
    SetWriteDeadline := fun conn _ w => (f conn, w) }

/-- An environment whose state is the list of the connections closed so far:
closing a connection a second time fails. -/
def closingNet : Net (List Conn) :=
  { DialTimeout := fun _ _ _ w => (.ok 0, w)
    Read := fun _ buf w => ((buf, 0, none), w)
    Write := fun _ _ w => ((0, none), w)
    LocalAddr := fun _ w => ("", w)
    RemoteAddr := fun _ w => ("", w)
    SetDeadline := fun _ _ w => (none, w)
    SetReadDeadline := fun _ _ w => (none, w)
    SetWriteDeadline := fun _ _ w => (none, w)
    Close := fun conn w =>
      if conn ∈ w then (some ("close " ++ toString conn ++ ": already closed"), w)
      else (none, conn :: w) }

/-- An environment whose state is the number of connections dialed so far: the
address "B" refuses the connection, every other address yields the next
connection. -/
def dialNet : Net Nat :=
  { DialTimeout := fun _ address _ w =>
      if address = "B" then (.error "connection refused", w) else (.ok w, w + 1)
    Read := fun _ buf w => ((buf, 0, none), w)
    Write := fun _ _ w => ((0, none), w)
    LocalAddr := fun conn w => ("local " ++ toString conn, w)
    RemoteAddr := fun conn w => ("remote " ++ toString conn, w)
    SetDeadline := fun _ _ w => (none, w)
    SetReadDeadline := fun _ _ w => (none, w)
    SetWriteDeadline := fun _ _ w => (none, w)
    Close := fun _ w => (none, w) }

/-- Upstream 2 rejects the write with a connection reset after 0 bytes, every
other upstream accepts 10 bytes. -/
def resetNet : Net Unit :=
  writeNet fun conn => if conn = 2 then (0, some "connection reset") else (10, none)

/-- Upstream 1 fails after a partial write of 3 bytes, every other upstream
accepts 10 bytes. -/
def partialNet : Net Unit :=
  writeNet fun conn => if conn = 1 then (3, some "connection reset") else (10, none)

/-- Every upstream rejects the write, with a message of its own. -/
def downNet : Net Unit :=
  writeNet fun conn => (0, some ("down " ++ toString conn))

/-- Upstream 2 fails Read with EOF, upstream 3 with a timeout, every other
upstream reports as many bytes as its number plus 5. -/
def eofNet : Net Unit :=
  readNet fun conn =>
    if conn = 2 then (0, some "EOF")
    else if conn = 3 then (0, some "i/o timeout")
    else (conn + 5, none)

/-- Every upstream rejects the deadline. -/
def lateNet : Net Unit :=
  deadlineNet fun _ => some "deadline exceeded"

/-- Upstream 1 rejects the deadline, every other upstream applies it. -/
def oneLateNet : Net Unit :=
  deadlineNet fun conn => if conn = 1 then some "deadline exceeded" else none

/-- Upstream 0 reports the largest int, every other upstream reports 1 byte. -/
def hugeNet : Net Unit :=
  writeNet fun conn => if conn = 0 then (9223372036854775807, none) else (1, none)

/-- Every Read fills the buffer it is given and reports its length. -/
def fillNet : Net Unit :=
  { okNet with Read := fun _ buf w => ((buf.map fun _ => 255, buf.length, none), w) }

/-- Ten bytes to write. -/
def tenBytes : Bytes := [1, 2, 3, 4, 5, 6, 7, 8, 9, 10]

/-! ## Lemmas on the primitives -/

theorem wrapInt_add_left (a b : Int) : wrapInt (wrapInt a + b) = wrapInt (a + b) := by
  unfold wrapInt
  omega

theorem wrapInt_of_fits (x : Int) (hlo : -9223372036854775808 ≤ x)
    (hhi : x < 9223372036854775808) : wrapInt x = x := by
  unfold wrapInt
  omega

theorem stringsJoin_cons_cons (a b : String) (rest : List String) (sep : String) :
    stringsJoin (a :: b :: rest) sep = a ++ sep ++ stringsJoin (b :: rest) sep := rfl

/-- Every element of a joined list occurs in the join. -/
theorem stringsJoin_contains (sep m : String) :
    ∀ l : List String, m ∈ l → ∃ pre post, stringsJoin l sep = pre ++ m ++ post
  | [], h => by simp at h
  | [a], h => by
    have hm : m = a := by simpa using h
    exact ⟨"", "", by simp [stringsJoin, hm]⟩
  | a :: b :: rest, h => by
    rcases List.mem_cons.mp h with hm | hm
    · exact ⟨"", sep ++ stringsJoin (b :: rest) sep, by
        rw [stringsJoin_cons_cons, hm, String.empty_append, String.append_assoc]⟩
    · obtain ⟨pre, post, hj⟩ := stringsJoin_contains sep m (b :: rest) hm
      exact ⟨a ++ sep ++ pre, post, by
        rw [stringsJoin_cons_cons, hj]
        simp only [String.append_assoc]⟩

/-- Every element of a joined list occurs in the join, also after a prefix. -/
theorem prefixed_join_contains (pfx sep m : String) (l : List String) (h : m ∈ l) :
    ∃ pre post, pfx ++ stringsJoin l sep = pre ++ m ++ post := by
  obtain ⟨pre, post, hj⟩ := stringsJoin_contains sep m l h
  exact ⟨pfx ++ pre, post, by
    rw [hj]
    simp only [String.append_assoc]⟩

/-- Some message was collected exactly when some call returned an error. -/
theorem filterMap_length_pos_iff {α β : Type} (f : α → Option β) (l : List α) :
    0 < (l.filterMap f).length ↔ ∃ a ∈ l, f a ≠ none := by
  rw [List.length_pos, Ne, List.filterMap_eq_nil_iff]
  push_neg
  rfl

/-! ## Lemmas on the reference -/

theorem callEach_cons {ι σ α β : Type} (f : ι → σ → α × σ) (record : ι → α → β) (x : ι)
    (rest : List ι) (w : σ) :
    callEach f record (x :: rest) w =
      (record x (f x w).1 :: (callEach f record rest (f x w).2).1,
        (callEach f record rest (f x w).2).2) := rfl

/-- The reference has one call for each element, in order. -/
theorem callEach_map {ι σ α β : Type} (f : ι → σ → α × σ) (record : ι → α → β)
    (key : β → ι) (hkey : ∀ x a, key (record x a) = x) :
    ∀ (l : List ι) (w : σ), (callEach f record l w).1.map key = l
  | [], _ => rfl
  | x :: rest, w => by
    rw [callEach_cons, List.map_cons, hkey, callEach_map f record key hkey rest]

/-- What holds of every record holds of every call of the reference. -/
theorem callEach_forall {ι σ α β : Type} (f : ι → σ → α × σ) (record : ι → α → β)
    (P : β → Prop) (hP : ∀ x a, P (record x a)) :
    ∀ (l : List ι) (w : σ), ∀ c ∈ (callEach f record l w).1, P c
  | [], _ => by simp [callEach]
  | x :: rest, w => by
    intro c hc
    rw [callEach_cons] at hc
    rcases List.mem_cons.mp hc with rfl | hc
    · exact hP x _
    · exact callEach_forall f record P hP rest _ c hc

/-! ## Lemmas on Write -/

/-- One turn of the loop of Write. -/
theorem writeLoop_cons {σ : Type} (net : Net σ) (b : Bytes) (conn : Conn) (rest : List Conn)
    (s : WriteLoop σ) :
    writeLoop net b (conn :: rest) s = writeLoop net b rest
      { world := (net.Write conn b s.world).2
        writenRet := wrapInt (s.writenRet + (net.Write conn b s.world).1.1)
        errs := s.errs ++ (net.Write conn b s.world).1.2.toList
        calls := s.calls ++ [{ conn := conn, b := b
                               writen := (net.Write conn b s.world).1.1
                               err := (net.Write conn b s.world).1.2 }] } := by
  rw [writeLoop]
  generalize net.Write conn b s.world = r
  obtain ⟨⟨writen, err⟩, w⟩ := r
  cases err <;> simp

/-- The loop of Write against the reference: the calls it makes are those of
the reference, it leaves the world the reference leaves, it collects the
messages of the failed calls and adds up all counts. -/
theorem writeLoop_run {σ : Type} (net : Net σ) (b : Bytes) :
    ∀ (ups : List Conn) (s : WriteLoop σ), wrapInt s.writenRet = s.writenRet →
      (writeLoop net b ups s).calls = s.calls ++ (writeEach net b ups s.world).1 ∧
      (writeLoop net b ups s).world = (writeEach net b ups s.world).2 ∧
      (writeLoop net b ups s).errs =
        s.errs ++ (writeEach net b ups s.world).1.filterMap (fun c => c.err) ∧
      (writeLoop net b ups s).writenRet =
        wrapInt (s.writenRet + ((writeEach net b ups s.world).1.map (fun c => c.writen)).sum)
  | [], s, hs => by simp [writeLoop, writeEach, callEach, hs]
  | conn :: rest, s, _ => by
    obtain ⟨h1, h2, h4, h5⟩ := writeLoop_run net b rest
      { world := (net.Write conn b s.world).2
        writenRet := wrapInt (s.writenRet + (net.Write conn b s.world).1.1)
        errs := s.errs ++ (net.Write conn b s.world).1.2.toList
        calls := s.calls ++ [{ conn := conn, b := b
                               writen := (net.Write conn b s.world).1.1
                               err := (net.Write conn b s.world).1.2 }] }
      (by simp only [wrapInt]; omega)
    unfold writeEach at h1 h2 h4 h5 ⊢
    refine ⟨?_, ?_, ?_, ?_⟩
    · rw [writeLoop_cons, h1, callEach_cons]
      simp
    · rw [writeLoop_cons, h2, callEach_cons]
    · rw [writeLoop_cons, h4, callEach_cons]
      cases (net.Write conn b s.world).1.2 <;> simp
    · rw [writeLoop_cons, h5, callEach_cons]
      simp only [List.map_cons, List.sum_cons]
      rw [wrapInt_add_left, add_assoc]

/-- What Write returns and does, in terms of what the upstreams answer. -/
theorem Write_spec {σ : Type} (net : Net σ) (mcon : MultiConn) (b : Bytes) (w : σ) :
    (mcon.Write net b w).calls = (writeEach net b mcon.upstreams w).1 ∧
    (mcon.Write net b w).world = (writeEach net b mcon.upstreams w).2 ∧
    (mcon.Write net b w).n =
      wrapInt (((writeEach net b mcon.upstreams w).1.map (fun c => c.writen)).sum) ∧
    (mcon.Write net b w).err =
      (if ((writeEach net b mcon.upstreams w).1.filterMap (fun c => c.err)).length =
          mcon.upstreams.length
        then some ("error writing to all upstreams: " ++
          stringsJoin ((writeEach net b mcon.upstreams w).1.filterMap (fun c => c.err)) "; ")
        else none) ∧
    (mcon.Write net b w).log =
      (if ((writeEach net b mcon.upstreams w).1.filterMap (fun c => c.err)).length ≠
            mcon.upstreams.length ∧
          0 < ((writeEach net b mcon.upstreams w).1.filterMap (fun c => c.err)).length
        then ["error writing to upstreams: " ++
          stringsJoin ((writeEach net b mcon.upstreams w).1.filterMap (fun c => c.err)) "; "]
        else []) := by
  obtain ⟨h1, h2, h4, h5⟩ := writeLoop_run net b mcon.upstreams
    { world := w, writenRet := 0, errs := [], calls := [] } (by simp [wrapInt])
  simp only [List.nil_append, zero_add] at h1 h2 h4 h5
  unfold MultiConn.Write
  simp only [h1, h2, h4, h5]
  split <;> simp_all

/-- The reference of Write has one call for each upstream, in order. -/
theorem writeEach_conns {σ : Type} (net : Net σ) (b : Bytes) (ups : List Conn) (w : σ) :
    (writeEach net b ups w).1.map (fun c => c.conn) = ups :=
  callEach_map _ _ (fun c : WriteCall => c.conn) (fun _ _ => rfl) ups w

/-- Upstreams that report no bytes on failure add nothing to the count. -/
theorem sum_writen_of_failed_zero :
    ∀ calls : List WriteCall, (∀ c ∈ calls, c.err ≠ none → c.writen = 0) →
      (calls.map (fun c => c.writen)).sum =
        ((calls.filter (fun c => c.err.isNone)).map (fun c => c.writen)).sum
  | [], _ => rfl
  | c :: rest, h => by
    have ih := sum_writen_of_failed_zero rest (fun d hd => h d (List.mem_cons_of_mem c hd))
    have hc := h c (List.mem_cons_self c rest)
    cases he : c.err with
    | none => simp [List.filter_cons, he, ih]
    | some e => simp [List.filter_cons, he, ih, hc (by simp [he])]

/-- When every call failed, the collected messages are the errors of the
calls, one for one. -/
theorem map_err_of_all_failed :
    ∀ calls : List WriteCall, (∀ c ∈ calls, c.err ≠ none) →
      calls.map (fun c => c.err) = (calls.filterMap (fun c => c.err)).map some
  | [], _ => rfl
  | c :: rest, h => by
    have ih := map_err_of_all_failed rest (fun d hd => h d (List.mem_cons_of_mem c hd))
    have hc := h c (List.mem_cons_self c rest)
    cases he : c.err with
    | none => exact absurd he hc
    | some e => simp [List.filterMap_cons, he, ih]

/-! ## Write: the claims -/

/-- C1, refuted as stated: on an adapter with no upstream every (that is, no)
call of Write on an upstream succeeds, and Write returns the error of the case
in which all upstreams failed. -/
theorem Write_no_upstream_returns_error :
    (∀ c ∈ (writeEach resetNet tenBytes [] ()).1, c.err = none) ∧
    (MultiConn.Write resetNet { upstreams := [] } tenBytes ()).n = 0 ∧
    (MultiConn.Write resetNet { upstreams := [] } tenBytes ()).err =
      some "error writing to all upstreams: " ∧
    (MultiConn.Write resetNet { upstreams := [] } tenBytes ()).err ≠ none := by
  decide

/-- C1, amended: when the Write of every upstream succeeds (each upstream asked
once, in upstream order, with the bytes of the caller) and there is at least
one upstream, Write makes exactly these calls, returns no error, logs nothing,
and returns the sum of the counts the upstreams answered, computed in 64-bit
int arithmetic: the exact sum whenever that fits in an int. With no upstream it
returns 0 and the error of the case in which all upstreams failed. -/
theorem Write_all_succeed {σ : Type} (net : Net σ) (mcon : MultiConn) (b : Bytes) (w : σ)
    (hok : ∀ c ∈ (writeEach net b mcon.upstreams w).1, c.err = none) :
    (mcon.Write net b w).calls = (writeEach net b mcon.upstreams w).1 ∧
    (mcon.Write net b w).world = (writeEach net b mcon.upstreams w).2 ∧
    (mcon.upstreams ≠ [] →
      (mcon.Write net b w).err = none ∧
      (mcon.Write net b w).log = [] ∧
      (mcon.Write net b w).n =
        wrapInt (((writeEach net b mcon.upstreams w).1.map (fun c => c.writen)).sum) ∧
      (-9223372036854775808 ≤
          ((writeEach net b mcon.upstreams w).1.map (fun c => c.writen)).sum →
        ((writeEach net b mcon.upstreams w).1.map (fun c => c.writen)).sum <
          9223372036854775808 →
        (mcon.Write net b w).n =
          ((writeEach net b mcon.upstreams w).1.map (fun c => c.writen)).sum)) ∧
    (mcon.upstreams = [] →
      (mcon.Write net b w).n = 0 ∧
      (mcon.Write net b w).err = some "error writing to all upstreams: ") := by
  obtain ⟨h1, h2, h3, h4, h5⟩ := Write_spec net mcon b w
  have hnil : (writeEach net b mcon.upstreams w).1.filterMap (fun c => c.err) = [] := by
    rw [List.filterMap_eq_nil_iff]
    exact hok
  rw [hnil] at h4 h5
  refine ⟨h1, h2, ?_, ?_⟩
  · intro hne
    have hlen : ¬ (0 = mcon.upstreams.length) := fun h =>
      hne (List.length_eq_zero.mp h.symm)
    refine ⟨?_, ?_, h3, ?_⟩
    · simpa [hlen] using h4
    · simpa using h5
    · intro hlo hhi
      rw [h3, wrapInt_of_fits _ hlo hhi]
  · intro he
    constructor
    · rw [h3, he]
      simp [writeEach, callEach, wrapInt]
    · rw [h4, he]
      rfl

/-- The amended C1 at two upstreams that each accept 10 bytes: Write returns
20 and no error. -/
theorem Write_all_succeed_witness :
    (∀ c ∈ (writeEach resetNet tenBytes [0, 1] ()).1, c.err = none) ∧
    (MultiConn.Write resetNet { upstreams := [0, 1] } tenBytes ()).calls =
      [{ conn := 0, b := tenBytes, writen := 10, err := none },
       { conn := 1, b := tenBytes, writen := 10, err := none }] ∧
    (MultiConn.Write resetNet { upstreams := [0, 1] } tenBytes ()).err = none ∧
    (MultiConn.Write resetNet { upstreams := [0, 1] } tenBytes ()).n = 20 :=
  ⟨by decide,
    (Write_all_succeed resetNet { upstreams := [0, 1] } tenBytes () (by decide)).1.trans
      (by decide),
    ((Write_all_succeed resetNet { upstreams := [0, 1] } tenBytes () (by decide)).2.2.1
      (by decide)).1,
    ((Write_all_succeed resetNet { upstreams := [0, 1] } tenBytes () (by decide)).2.2.1
      (by decide)).2.2.2 (by decide) (by decide)⟩

/-- C2, refuted as stated: of two upstreams, one accepts 10 bytes and one fails
after a partial write of 3 bytes; one of the two failed, Write returns no error
and the count 13, while the counts of the upstreams whose write succeeded sum
to 10. -/
theorem Write_counts_partial_write_of_failed_upstream :
    (writeEach partialNet tenBytes [0, 1] ()).1 =
      [{ conn := 0, b := tenBytes, writen := 10, err := none },
       { conn := 1, b := tenBytes, writen := 3, err := some "connection reset" }] ∧
    1 ≤ ((writeEach partialNet tenBytes [0, 1] ()).1.filterMap (fun c => c.err)).length ∧
    ((writeEach partialNet tenBytes [0, 1] ()).1.filterMap (fun c => c.err)).length <
      [0, 1].length ∧
    (MultiConn.Write partialNet { upstreams := [0, 1] } tenBytes ()).err = none ∧
    (MultiConn.Write partialNet { upstreams := [0, 1] } tenBytes ()).n = 13 ∧
    (((writeEach partialNet tenBytes [0, 1] ()).1.filter
      (fun c => c.err.isNone)).map (fun c => c.writen)).sum = 10 ∧
    (MultiConn.Write partialNet { upstreams := [0, 1] } tenBytes ()).n ≠
      (((writeEach partialNet tenBytes [0, 1] ()).1.filter
        (fun c => c.err.isNone)).map (fun c => c.writen)).sum := by
  decide

/-- C2, amended: when the Write of at least one but not of every upstream fails
(each upstream asked once, in upstream order, with the bytes of the caller),
Write makes exactly these calls, returns no error, logs the joined failure
messages, and returns the sum of the counts answered by all upstreams, those of
the failed ones included (in 64-bit int arithmetic: the exact sum whenever that
fits in an int); this is the sum over the upstreams whose write succeeded
whenever every failed upstream answered 0 bytes. -/
theorem Write_some_fail {σ : Type} (net : Net σ) (mcon : MultiConn) (b : Bytes) (w : σ)
    (hf : 1 ≤ ((writeEach net b mcon.upstreams w).1.filterMap (fun c => c.err)).length)
    (hn : ((writeEach net b mcon.upstreams w).1.filterMap (fun c => c.err)).length <
      mcon.upstreams.length) :
    (mcon.Write net b w).calls = (writeEach net b mcon.upstreams w).1 ∧
    (mcon.Write net b w).world = (writeEach net b mcon.upstreams w).2 ∧
    (mcon.Write net b w).err = none ∧
    (mcon.Write net b w).log = ["error writing to upstreams: " ++
      stringsJoin ((writeEach net b mcon.upstreams w).1.filterMap (fun c => c.err)) "; "] ∧
    (mcon.Write net b w).n =
      wrapInt (((writeEach net b mcon.upstreams w).1.map (fun c => c.writen)).sum) ∧
    (-9223372036854775808 ≤
        ((writeEach net b mcon.upstreams w).1.map (fun c => c.writen)).sum →
      ((writeEach net b mcon.upstreams w).1.map (fun c => c.writen)).sum <
        9223372036854775808 →
      (mcon.Write net b w).n =
        ((writeEach net b mcon.upstreams w).1.map (fun c => c.writen)).sum) ∧
    ((∀ c ∈ (writeEach net b mcon.upstreams w).1, c.err ≠ none → c.writen = 0) →
      (mcon.Write net b w).n = wrapInt ((((writeEach net b mcon.upstreams w).1.filter
        (fun c => c.err.isNone)).map (fun c => c.writen)).sum)) := by
  obtain ⟨h1, h2, h3, h4, h5⟩ := Write_spec net mcon b w
  have hne : ((writeEach net b mcon.upstreams w).1.filterMap (fun c => c.err)).length ≠
      mcon.upstreams.length := Nat.ne_of_lt hn
  refine ⟨h1, h2, ?_, ?_, h3, ?_, ?_⟩
  · rw [h4, if_neg hne]
  · rw [h5, if_pos ⟨hne, hf⟩]
  · intro hlo hhi
    rw [h3, wrapInt_of_fits _ hlo hhi]
  · intro hz
    rw [h3, sum_writen_of_failed_zero _ hz]

/-- The amended C2 at the scenario of the specification: three upstreams, two
accept the 10 bytes and one rejects them with a connection reset; Write returns
20 and no error, and the log line carries the message. -/
theorem Write_some_fail_witness :
    1 ≤ ((writeEach resetNet tenBytes [0, 1, 2] ()).1.filterMap (fun c => c.err)).length ∧
    ((writeEach resetNet tenBytes [0, 1, 2] ()).1.filterMap (fun c => c.err)).length <
      [0, 1, 2].length ∧
    (MultiConn.Write resetNet { upstreams := [0, 1, 2] } tenBytes ()).calls =
      [{ conn := 0, b := tenBytes, writen := 10, err := none },
       { conn := 1, b := tenBytes, writen := 10, err := none },
       { conn := 2, b := tenBytes, writen := 0, err := some "connection reset" }] ∧
    (MultiConn.Write resetNet { upstreams := [0, 1, 2] } tenBytes ()).err = none ∧
    (MultiConn.Write resetNet { upstreams := [0, 1, 2] } tenBytes ()).n = 20 ∧
    (MultiConn.Write resetNet { upstreams := [0, 1, 2] } tenBytes ()).log =
      ["error writing to upstreams: connection reset"] :=
  ⟨by decide, by decide,
    (Write_some_fail resetNet { upstreams := [0, 1, 2] } tenBytes ()
      (by decide) (by decide)).1.trans (by decide),
    (Write_some_fail resetNet { upstreams := [0, 1, 2] } tenBytes ()
      (by decide) (by decide)).2.2.1,
    (Write_some_fail resetNet { upstreams := [0, 1, 2] } tenBytes ()
      (by decide) (by decide)).2.2.2.2.2.1 (by decide) (by decide),
    (Write_some_fail resetNet { upstreams := [0, 1, 2] } tenBytes ()
      (by decide) (by decide)).2.2.2.1.trans (by decide)⟩

/-- C3: when the Write of every upstream fails (each upstream asked once, in
upstream order, with the bytes of the caller), Write makes exactly these calls
and returns an error whose text is "error writing to all upstreams: " followed
by the failure messages the upstreams answered, one for each upstream and in
upstream order, joined by "; "; the message of every upstream occurs in the
text. -/
theorem Write_all_fail {σ : Type} (net : Net σ) (mcon : MultiConn) (b : Bytes) (w : σ)
    (hall : ∀ c ∈ (writeEach net b mcon.upstreams w).1, c.err ≠ none) :
    (mcon.Write net b w).calls = (writeEach net b mcon.upstreams w).1 ∧
    (mcon.Write net b w).world = (writeEach net b mcon.upstreams w).2 ∧
    (mcon.Write net b w).err = some ("error writing to all upstreams: " ++
      stringsJoin ((writeEach net b mcon.upstreams w).1.filterMap (fun c => c.err)) "; ") ∧
    (writeEach net b mcon.upstreams w).1.map (fun c => c.conn) = mcon.upstreams ∧
    (writeEach net b mcon.upstreams w).1.map (fun c => c.err) =
      ((writeEach net b mcon.upstreams w).1.filterMap (fun c => c.err)).map some ∧
    (∀ c ∈ (writeEach net b mcon.upstreams w).1, ∀ m, c.err = some m →
      ∃ pre post, "error writing to all upstreams: " ++
        stringsJoin ((writeEach net b mcon.upstreams w).1.filterMap (fun c => c.err)) "; " =
          pre ++ m ++ post) := by
  obtain ⟨h1, h2, _, h4, _⟩ := Write_spec net mcon b w
  have hconns := writeEach_conns net b mcon.upstreams w
  have hmap := map_err_of_all_failed _ hall
  have hlen : ((writeEach net b mcon.upstreams w).1.filterMap (fun c => c.err)).length =
      mcon.upstreams.length := by
    rw [← List.length_map _ some, ← hmap, List.length_map]
    conv_rhs => rw [← hconns]
    rw [List.length_map]
  refine ⟨h1, h2, ?_, hconns, hmap, ?_⟩
  · rw [h4, if_pos hlen]
  · intro c hc m hm
    exact prefixed_join_contains _ "; " m _ (List.mem_filterMap.mpr ⟨c, hc, hm⟩)

/-- C3 at two upstreams that both reject the write. -/
theorem Write_all_fail_witness :
    (∀ c ∈ (writeEach downNet tenBytes [4, 7] ()).1, c.err ≠ none) ∧
    (MultiConn.Write downNet { upstreams := [4, 7] } tenBytes ()).err =
      some "error writing to all upstreams: down 4; down 7" :=
  ⟨by decide,
    (Write_all_fail downNet { upstreams := [4, 7] } tenBytes () (by decide)).2.2.1.trans
      (by decide)⟩

/-- C4, refuted as stated: of two upstreams the first answers the largest int
and the second 1 byte; the count Write returns is the smallest int, not the sum
of the two counts. -/
theorem Write_count_wraps_around :
    (writeEach hugeNet tenBytes [0, 1] ()).1.map (fun c => c.writen) =
      [9223372036854775807, 1] ∧
    (MultiConn.Write hugeNet { upstreams := [0, 1] } tenBytes ()).n =
      -9223372036854775808 ∧
    (MultiConn.Write hugeNet { upstreams := [0, 1] } tenBytes ()).n ≠
      ((writeEach hugeNet tenBytes [0, 1] ()).1.map (fun c => c.writen)).sum := by
  decide

/-- C4, amended: whatever the upstreams answer, Write calls Write once on every
upstream, in upstream order and with the bytes of the caller, so a failed
upstream does not stop the others from being written to; the count it returns
is the sum of the counts answered to all these calls, those that were answered
with an error too included, reduced to the range of a 64-bit int: the exact
sum whenever that lies in the range. -/
theorem Write_count_is_sum_of_all {σ : Type} (net : Net σ) (mcon : MultiConn) (b : Bytes)
    (w : σ) :
    (mcon.Write net b w).calls = (writeEach net b mcon.upstreams w).1 ∧
    (mcon.Write net b w).world = (writeEach net b mcon.upstreams w).2 ∧
    (writeEach net b mcon.upstreams w).1.map (fun c => c.conn) = mcon.upstreams ∧
    (mcon.Write net b w).n =
      wrapInt (((writeEach net b mcon.upstreams w).1.map (fun c => c.writen)).sum) ∧
    (-9223372036854775808 ≤
        ((writeEach net b mcon.upstreams w).1.map (fun c => c.writen)).sum →
      ((writeEach net b mcon.upstreams w).1.map (fun c => c.writen)).sum <
        9223372036854775808 →
      (mcon.Write net b w).n =
        ((writeEach net b mcon.upstreams w).1.map (fun c => c.writen)).sum) := by
  obtain ⟨h1, h2, h3, _, _⟩ := Write_spec net mcon b w
  refine ⟨h1, h2, writeEach_conns net b mcon.upstreams w, h3, ?_⟩
  intro hlo hhi
  rw [h3, wrapInt_of_fits _ hlo hhi]

/-- The amended C4 at an upstream that fails after 3 of the 10 bytes, between
two that accept them: all three are written to and the count is 23. -/
theorem Write_count_is_sum_of_all_witness :
    (MultiConn.Write partialNet { upstreams := [0, 1, 2] } tenBytes ()).calls =
      [{ conn := 0, b := tenBytes, writen := 10, err := none },
       { conn := 1, b := tenBytes, writen := 3, err := some "connection reset" },
       { conn := 2, b := tenBytes, writen := 10, err := none }] ∧
    (MultiConn.Write partialNet { upstreams := [0, 1, 2] } tenBytes ()).n = 23 :=
  ⟨(Write_count_is_sum_of_all partialNet { upstreams := [0, 1, 2] } tenBytes ()).1.trans
      (by decide),
    (Write_count_is_sum_of_all partialNet { upstreams := [0, 1, 2] } tenBytes ()).2.2.2.2
      (by decide) (by decide)⟩

/-! ## Read -/

/-- One turn of the loop of Read. -/
theorem readLoop_cons {σ : Type} (net : Net σ) (conn : Conn) (rest : List Conn)
    (s : ReadLoop σ) :
    readLoop net (conn :: rest) s = readLoop net rest
      { world := (net.Read conn [] s.world).2
        retRead := if (net.Read conn [] s.world).1.2.2.isNone
          then (net.Read conn [] s.world).1.2.1 else s.retRead
        errs := s.errs ++ (net.Read conn [] s.world).1.2.2.toList
        calls := s.calls ++ [{ conn := conn, buf := []
                               read := (net.Read conn [] s.world).1.2.1
                               err := (net.Read conn [] s.world).1.2.2 }] } := by
  rw [readLoop]
  generalize net.Read conn [] s.world = r
  obtain ⟨⟨buf, read, err⟩, w⟩ := r
  cases err <;> simp

/-- The count of the last call that returned no error, d when there is none. -/
theorem lastRead_cons (c : ReadCall) (l : List ReadCall) (d : Int) :
    ((((c :: l).filter (fun c => c.err.isNone)).getLast?).map (fun c => c.read)).getD d =
      (((l.filter (fun c => c.err.isNone)).getLast?).map (fun c => c.read)).getD
        (if c.err.isNone then c.read else d) := by
  cases he : c.err.isNone
  · simp [List.filter_cons, he]
  · simp only [List.filter_cons, he, if_true, List.getLast?_cons]
    cases (l.filter (fun c => c.err.isNone)).getLast? <;> simp

/-- The loop of Read against the reference: the calls it makes are those of
the reference, it leaves the world the reference leaves, it collects the
messages of the failed calls and keeps the count of the last call that
succeeded. -/
theorem readLoop_run {σ : Type} (net : Net σ) :
    ∀ (ups : List Conn) (s : ReadLoop σ),
      (readLoop net ups s).calls = s.calls ++ (readEach net ups s.world).1 ∧
      (readLoop net ups s).world = (readEach net ups s.world).2 ∧
      (readLoop net ups s).errs =
        s.errs ++ (readEach net ups s.world).1.filterMap (fun c => c.err) ∧
      (readLoop net ups s).retRead =
        ((((readEach net ups s.world).1.filter (fun c => c.err.isNone)).getLast?).map
          (fun c => c.read)).getD s.retRead
  | [], s => by simp [readLoop, readEach, callEach]
  | conn :: rest, s => by
    obtain ⟨h1, h2, h4, h5⟩ := readLoop_run net rest
      { world := (net.Read conn [] s.world).2
        retRead := if (net.Read conn [] s.world).1.2.2.isNone
          then (net.Read conn [] s.world).1.2.1 else s.retRead
        errs := s.errs ++ (net.Read conn [] s.world).1.2.2.toList
        calls := s.calls ++ [{ conn := conn, buf := []
                               read := (net.Read conn [] s.world).1.2.1
                               err := (net.Read conn [] s.world).1.2.2 }] }
    unfold readEach at h1 h2 h4 h5 ⊢
    refine ⟨?_, ?_, ?_, ?_⟩
    · rw [readLoop_cons, h1, callEach_cons]
      simp
    · rw [readLoop_cons, h2, callEach_cons]
    · rw [readLoop_cons, h4, callEach_cons]
      cases (net.Read conn [] s.world).1.2.2 <;> simp
    · rw [readLoop_cons, h5, callEach_cons, lastRead_cons]

/-- What Read returns and does, in terms of what the upstreams answer. -/
theorem Read_spec {σ : Type} (net : Net σ) (mcon : MultiConn) (b : Bytes) (w : σ) :
    (mcon.Read net b w).calls = (readEach net mcon.upstreams w).1 ∧
    (mcon.Read net b w).world = (readEach net mcon.upstreams w).2 ∧
    (mcon.Read net b w).b = b ∧
    (mcon.Read net b w).n =
      ((((readEach net mcon.upstreams w).1.filter (fun c => c.err.isNone)).getLast?).map
        (fun c => c.read)).getD 0 ∧
    (mcon.Read net b w).err =
      (if 0 < ((readEach net mcon.upstreams w).1.filterMap (fun c => c.err)).length
        then some ("error reading from upstreams: " ++
          stringsJoin ((readEach net mcon.upstreams w).1.filterMap (fun c => c.err)) "; ")
        else none) := by
  obtain ⟨h1, h2, h4, h5⟩ := readLoop_run net mcon.upstreams
    { world := w, retRead := 0, errs := [], calls := [] }
  simp only [List.nil_append] at h1 h2 h4 h5
  unfold MultiConn.Read
  simp only [h1, h2, h4, h5]
  split <;> simp_all

/-- The reference of Read has one call for each upstream, in order. -/
theorem readEach_conns {σ : Type} (net : Net σ) (ups : List Conn) (w : σ) :
    (readEach net ups w).1.map (fun c => c.conn) = ups :=
  callEach_map _ _ (fun c : ReadCall => c.conn) (fun _ _ => rfl) ups w

/-! ## Read: the claims -/

/-- C7: Read asks every upstream once, in upstream order, and returns as its
count the count answered by the last upstream that answered without an error,
0 when there is none; it returns an error exactly when some upstream answered
with one, and its text is then "error reading from upstreams: " followed by the
messages of all upstreams that failed, joined by "; ". With no upstream it
returns 0 and no error. -/
theorem Read_returns_last_success {σ : Type} (net : Net σ) (mcon : MultiConn) (b : Bytes)
    (w : σ) :
    (mcon.Read net b w).calls = (readEach net mcon.upstreams w).1 ∧
    (mcon.Read net b w).world = (readEach net mcon.upstreams w).2 ∧
    (readEach net mcon.upstreams w).1.map (fun c => c.conn) = mcon.upstreams ∧
    (mcon.Read net b w).n =
      ((((readEach net mcon.upstreams w).1.filter (fun c => c.err.isNone)).getLast?).map
        (fun c => c.read)).getD 0 ∧
    ((mcon.Read net b w).err ≠ none ↔ ∃ c ∈ (readEach net mcon.upstreams w).1, c.err ≠ none) ∧
    ((∃ c ∈ (readEach net mcon.upstreams w).1, c.err ≠ none) →
      (mcon.Read net b w).err = some ("error reading from upstreams: " ++
        stringsJoin ((readEach net mcon.upstreams w).1.filterMap (fun c => c.err)) "; ")) ∧
    (mcon.upstreams = [] → (mcon.Read net b w).n = 0 ∧ (mcon.Read net b w).err = none) := by
  obtain ⟨h1, h2, _, h4, h5⟩ := Read_spec net mcon b w
  have hiff := filterMap_length_pos_iff (fun c : ReadCall => c.err)
    (readEach net mcon.upstreams w).1
  refine ⟨h1, h2, readEach_conns net mcon.upstreams w, h4, ?_, ?_, ?_⟩
  · rw [← hiff, h5]
    split <;> simp_all
  · intro hex
    rw [h5, if_pos (hiff.mpr hex)]
  · intro he
    constructor
    · rw [h4, he]
      rfl
    · rw [h5, he]
      rfl

/-- C7 at four upstreams of which the third and the fourth fail: the count is
that of the second, and the error joins both messages. -/
theorem Read_returns_last_success_witness :
    (readEach eofNet [0, 1, 2, 3] ()).1 =
      [{ conn := 0, buf := [], read := 5, err := none },
       { conn := 1, buf := [], read := 6, err := none },
       { conn := 2, buf := [], read := 0, err := some "EOF" },
       { conn := 3, buf := [], read := 0, err := some "i/o timeout" }] ∧
    (MultiConn.Read eofNet { upstreams := [0, 1, 2, 3] } tenBytes ()).n = 6 ∧
    (MultiConn.Read eofNet { upstreams := [0, 1, 2, 3] } tenBytes ()).err =
      some "error reading from upstreams: EOF; i/o timeout" ∧
    (MultiConn.Read eofNet { upstreams := [] } tenBytes ()).n = 0 ∧
    (MultiConn.Read eofNet { upstreams := [] } tenBytes ()).err = none :=
  ⟨by decide,
    (Read_returns_last_success eofNet { upstreams := [0, 1, 2, 3] } tenBytes ()).2.2.2.1.trans
      (by decide),
    ((Read_returns_last_success eofNet { upstreams := [0, 1, 2, 3] } tenBytes ()).2.2.2.2.2.1
      (by decide)).trans (by decide),
    ((Read_returns_last_success eofNet { upstreams := [] } tenBytes ()).2.2.2.2.2.2 rfl).1,
    ((Read_returns_last_success eofNet { upstreams := [] } tenBytes ()).2.2.2.2.2.2 rfl).2⟩

/-- C10: Read asks every upstream to read exactly once, in upstream order and
also after an upstream that failed: its calls are those of the reference, and
it leaves the world that one read for each upstream leaves. Every one of these
reads is given an empty buffer, not the buffer of the caller: whatever the
caller passes, the calls, the results and the world are the same, and the
buffer of the caller has the same content afterwards. -/
theorem Read_leaves_buffer_untouched {σ : Type} (net : Net σ) (mcon : MultiConn) (b : Bytes)
    (w : σ) :
    (mcon.Read net b w).calls = (readEach net mcon.upstreams w).1 ∧
    (mcon.Read net b w).world = (readEach net mcon.upstreams w).2 ∧
    (readEach net mcon.upstreams w).1.map (fun c => c.conn) = mcon.upstreams ∧
    (readEach net mcon.upstreams w).1.length = mcon.upstreams.length ∧
    (∀ c ∈ (mcon.Read net b w).calls, c.buf = []) ∧
    (∀ b2 : Bytes,
      (mcon.Read net b2 w).calls = (mcon.Read net b w).calls ∧
      (mcon.Read net b2 w).world = (mcon.Read net b w).world ∧
      (mcon.Read net b2 w).n = (mcon.Read net b w).n ∧
      (mcon.Read net b2 w).err = (mcon.Read net b w).err) ∧
    (mcon.Read net b w).b = b := by
  obtain ⟨h1, h2, h3, h4, h5⟩ := Read_spec net mcon b w
  have hconns := readEach_conns net mcon.upstreams w
  refine ⟨h1, h2, hconns, ?_, ?_, ?_, h3⟩
  · conv_rhs => rw [← hconns]
    rw [List.length_map]
  · rw [h1]
    exact callEach_forall _ _ (fun c : ReadCall => c.buf = []) (fun _ _ => rfl)
      mcon.upstreams w
  · intro b2
    obtain ⟨g1, g2, _, g4, g5⟩ := Read_spec net mcon b2 w
    exact ⟨g1.trans h1.symm, g2.trans h2.symm, g4.trans h4.symm, g5.trans h5.symm⟩

/-- C10 at four upstreams of which two fail: four reads, each with an empty
buffer, and the ten bytes of the caller are as they were; and at upstreams that
fill whatever buffer they are given: they are given no room, and report 0. -/
theorem Read_leaves_buffer_untouched_witness :
    (MultiConn.Read fillNet { upstreams := [0, 1] } tenBytes ()).n = 0 ∧
    (MultiConn.Read fillNet { upstreams := [0, 1] } tenBytes ()).b = tenBytes ∧
    (MultiConn.Read eofNet { upstreams := [0, 1, 2, 3] } tenBytes ()).calls =
      [{ conn := 0, buf := [], read := 5, err := none },
       { conn := 1, buf := [], read := 6, err := none },
       { conn := 2, buf := [], read := 0, err := some "EOF" },
       { conn := 3, buf := [], read := 0, err := some "i/o timeout" }] ∧
    (MultiConn.Read eofNet { upstreams := [0, 1, 2, 3] } tenBytes ()).b = tenBytes :=
  ⟨by decide,
    (Read_leaves_buffer_untouched fillNet { upstreams := [0, 1] } tenBytes ()).2.2.2.2.2.2,
    (Read_leaves_buffer_untouched eofNet { upstreams := [0, 1, 2, 3] } tenBytes ()).1.trans
      (by decide),
    (Read_leaves_buffer_untouched eofNet { upstreams := [0, 1, 2, 3] } tenBytes ()).2.2.2.2.2.2⟩

/-! ## Deadlines -/

/-- One turn of the loop of SetDeadline. -/
theorem setDeadlineLoop_cons {σ : Type} (net : Net σ) (t : Time) (conn : Conn) (rest : List Conn)
    (s : DeadlineLoop σ) :
    setDeadlineLoop net t (conn :: rest) s = setDeadlineLoop net t rest
      { world := (net.SetDeadline conn t s.world).2
        errs := s.errs ++ (net.SetDeadline conn t s.world).1.toList
        calls := s.calls ++ [{ conn := conn, t := t, err := (net.SetDeadline conn t s.world).1 }] } := by
  rw [setDeadlineLoop]
  generalize net.SetDeadline conn t s.world = r
  obtain ⟨err, w⟩ := r
  cases err <;> simp

/-- The loop of SetDeadline against the reference: the calls it makes are those of
the reference, it leaves the world the reference leaves, and it collects the
messages of the failed calls. -/
theorem setDeadlineLoop_run {σ : Type} (net : Net σ) (t : Time) :
    ∀ (ups : List Conn) (s : DeadlineLoop σ),
      (setDeadlineLoop net t ups s).calls = s.calls ++ (setDeadlineEach net t ups s.world).1 ∧
      (setDeadlineLoop net t ups s).world = (setDeadlineEach net t ups s.world).2 ∧
      (setDeadlineLoop net t ups s).errs =
        s.errs ++ (setDeadlineEach net t ups s.world).1.filterMap (fun c => c.err)
  | [], s => by simp [setDeadlineLoop, setDeadlineEach, callEach]
  | conn :: rest, s => by
    obtain ⟨h1, h2, h4⟩ := setDeadlineLoop_run net t rest
      { world := (net.SetDeadline conn t s.world).2
        errs := s.errs ++ (net.SetDeadline conn t s.world).1.toList
        calls := s.calls ++ [{ conn := conn, t := t, err := (net.SetDeadline conn t s.world).1 }] }
    unfold setDeadlineEach at h1 h2 h4 ⊢
    refine ⟨?_, ?_, ?_⟩
    · rw [setDeadlineLoop_cons, h1, callEach_cons]
      simp
    · rw [setDeadlineLoop_cons, h2, callEach_cons]
    · rw [setDeadlineLoop_cons, h4, callEach_cons]
      cases (net.SetDeadline conn t s.world).1 <;> simp

/-- What SetDeadline returns and does, in terms of what the upstreams answer. -/
theorem SetDeadline_spec {σ : Type} (net : Net σ) (mcon : MultiConn) (t : Time) (w : σ) :
    (mcon.SetDeadline net t w).calls = (setDeadlineEach net t mcon.upstreams w).1 ∧
    (mcon.SetDeadline net t w).world = (setDeadlineEach net t mcon.upstreams w).2 ∧
    (mcon.SetDeadline net t w).err =
      (if 0 < ((setDeadlineEach net t mcon.upstreams w).1.filterMap (fun c => c.err)).length
        then some ("error seting deadline on streams: " ++
          stringsJoin ((setDeadlineEach net t mcon.upstreams w).1.filterMap (fun c => c.err)) "; ")
        else none) := by
  obtain ⟨h1, h2, h4⟩ := setDeadlineLoop_run net t mcon.upstreams
    { world := w, errs := [], calls := [] }
  simp only [List.nil_append] at h1 h2 h4
  unfold MultiConn.SetDeadline
  simp only [h1, h2, h4]
  split <;> simp_all

/-- One turn of the loop of SetReadDeadline. -/
theorem setReadDeadlineLoop_cons {σ : Type} (net : Net σ) (t : Time) (conn : Conn) (rest : List Conn)
    (s : DeadlineLoop σ) :
    setReadDeadlineLoop net t (conn :: rest) s = setReadDeadlineLoop net t rest
      { world := (net.SetReadDeadline conn t s.world).2
        errs := s.errs ++ (net.SetReadDeadline conn t s.world).1.toList
        calls := s.calls ++ [{ conn := conn, t := t, err := (net.SetReadDeadline conn t s.world).1 }] } := by
  rw [setReadDeadlineLoop]
  generalize net.SetReadDeadline conn t s.world = r
  obtain ⟨err, w⟩ := r
  cases err <;> simp

/-- The loop of SetReadDeadline against the reference: the calls it makes are those of
the reference, it leaves the world the reference leaves, and it collects the
messages of the failed calls. -/
theorem setReadDeadlineLoop_run {σ : Type} (net : Net σ) (t : Time) :
    ∀ (ups : List Conn) (s : DeadlineLoop σ),
      (setReadDeadlineLoop net t ups s).calls = s.calls ++ (setReadDeadlineEach net t ups s.world).1 ∧
      (setReadDeadlineLoop net t ups s).world = (setReadDeadlineEach net t ups s.world).2 ∧
      (setReadDeadlineLoop net t ups s).errs =
        s.errs ++ (setReadDeadlineEach net t ups s.world).1.filterMap (fun c => c.err)
  | [], s => by simp [setReadDeadlineLoop, setReadDeadlineEach, callEach]
  | conn :: rest, s => by
    obtain ⟨h1, h2, h4⟩ := setReadDeadlineLoop_run net t rest
      { world := (net.SetReadDeadline conn t s.world).2
        errs := s.errs ++ (net.SetReadDeadline conn t s.world).1.toList
        calls := s.calls ++ [{ conn := conn, t := t, err := (net.SetReadDeadline conn t s.world).1 }] }
    unfold setReadDeadlineEach at h1 h2 h4 ⊢
    refine ⟨?_, ?_, ?_⟩
    · rw [setReadDeadlineLoop_cons, h1, callEach_cons]
      simp
    · rw [setReadDeadlineLoop_cons, h2, callEach_cons]
    · rw [setReadDeadlineLoop_cons, h4, callEach_cons]
      cases (net.SetReadDeadline conn t s.world).1 <;> simp

/-- What SetReadDeadline returns and does, in terms of what the upstreams answer. -/
theorem SetReadDeadline_spec {σ : Type} (net : Net σ) (mcon : MultiConn) (t : Time) (w : σ) :
    (mcon.SetReadDeadline net t w).calls = (setReadDeadlineEach net t mcon.upstreams w).1 ∧
    (mcon.SetReadDeadline net t w).world = (setReadDeadlineEach net t mcon.upstreams w).2 ∧
    (mcon.SetReadDeadline net t w).err =
      (if 0 < ((setReadDeadlineEach net t mcon.upstreams w).1.filterMap (fun c => c.err)).length
        then some ("error setting read deadline on upstreams: " ++
          stringsJoin ((setReadDeadlineEach net t mcon.upstreams w).1.filterMap (fun c => c.err)) "; ")
        else none) := by
  obtain ⟨h1, h2, h4⟩ := setReadDeadlineLoop_run net t mcon.upstreams
    { world := w, errs := [], calls := [] }
  simp only [List.nil_append] at h1 h2 h4
  unfold MultiConn.SetReadDeadline
  simp only [h1, h2, h4]
  split <;> simp_all

/-- One turn of the loop of SetWriteDeadline. -/
theorem setWriteDeadlineLoop_cons {σ : Type} (net : Net σ) (t : Time) (conn : Conn) (rest : List Conn)
    (s : DeadlineLoop σ) :
    setWriteDeadlineLoop net t (conn :: rest) s = setWriteDeadlineLoop net t rest
      { world := (net.SetWriteDeadline conn t s.world).2
        errs := s.errs ++ (net.SetWriteDeadline conn t s.world).1.toList
        calls := s.calls ++ [{ conn := conn, t := t, err := (net.SetWriteDeadline conn t s.world).1 }] } := by
  rw [setWriteDeadlineLoop]
  generalize net.SetWriteDeadline conn t s.world = r
  obtain ⟨err, w⟩ := r
  cases err <;> simp

/-- The loop of SetWriteDeadline against the reference: the calls it makes are those of
the reference, it leaves the world the reference leaves, and it collects the
messages of the failed calls. -/
theorem setWriteDeadlineLoop_run {σ : Type} (net : Net σ) (t : Time) :
    ∀ (ups : List Conn) (s : DeadlineLoop σ),
      (setWriteDeadlineLoop net t ups s).calls = s.calls ++ (setWriteDeadlineEach net t ups s.world).1 ∧
      (setWriteDeadlineLoop net t ups s).world = (setWriteDeadlineEach net t ups s.world).2 ∧
      (setWriteDeadlineLoop net t ups s).errs =
        s.errs ++ (setWriteDeadlineEach net t ups s.world).1.filterMap (fun c => c.err)
  | [], s => by simp [setWriteDeadlineLoop, setWriteDeadlineEach, callEach]
  | conn :: rest, s => by
    obtain ⟨h1, h2, h4⟩ := setWriteDeadlineLoop_run net t rest
      { world := (net.SetWriteDeadline conn t s.world).2
        errs := s.errs ++ (net.SetWriteDeadline conn t s.world).1.toList
        calls := s.calls ++ [{ conn := conn, t := t, err := (net.SetWriteDeadline conn t s.world).1 }] }
    unfold setWriteDeadlineEach at h1 h2 h4 ⊢
    refine ⟨?_, ?_, ?_⟩
    · rw [setWriteDeadlineLoop_cons, h1, callEach_cons]
      simp
    · rw [setWriteDeadlineLoop_cons, h2, callEach_cons]
    · rw [setWriteDeadlineLoop_cons, h4, callEach_cons]
      cases (net.SetWriteDeadline conn t s.world).1 <;> simp

/-- What SetWriteDeadline returns and does, in terms of what the upstreams answer. -/
theorem SetWriteDeadline_spec {σ : Type} (net : Net σ) (mcon : MultiConn) (t : Time) (w : σ) :
    (mcon.SetWriteDeadline net t w).calls = (setWriteDeadlineEach net t mcon.upstreams w).1 ∧
    (mcon.SetWriteDeadline net t w).world = (setWriteDeadlineEach net t mcon.upstreams w).2 ∧
    (mcon.SetWriteDeadline net t w).err =
      (if 0 < ((setWriteDeadlineEach net t mcon.upstreams w).1.filterMap (fun c => c.err)).length
        then some ("error setting wriet deadline on upstreams: " ++
          stringsJoin ((setWriteDeadlineEach net t mcon.upstreams w).1.filterMap (fun c => c.err)) "; ")
        else none) := by
  obtain ⟨h1, h2, h4⟩ := setWriteDeadlineLoop_run net t mcon.upstreams
    { world := w, errs := [], calls := [] }
  simp only [List.nil_append] at h1 h2 h4
  unfold MultiConn.SetWriteDeadline
  simp only [h1, h2, h4]
  split <;> simp_all

/-- The method SetDeadline fails exactly when the setter of some upstream does, with
the joined messages. -/
theorem SetDeadline_error_iff {σ : Type} (net : Net σ) (mcon : MultiConn) (t : Time) (w : σ) :
    ((mcon.SetDeadline net t w).calls = (setDeadlineEach net t mcon.upstreams w).1 ∧
      (mcon.SetDeadline net t w).world = (setDeadlineEach net t mcon.upstreams w).2 ∧
      (setDeadlineEach net t mcon.upstreams w).1.map (fun c => c.conn) = mcon.upstreams ∧
      ((mcon.SetDeadline net t w).err ≠ none ↔ ∃ c ∈ (setDeadlineEach net t mcon.upstreams w).1, c.err ≠ none) ∧
      ((∃ c ∈ (setDeadlineEach net t mcon.upstreams w).1, c.err ≠ none) →
        (mcon.SetDeadline net t w).err = some ("error seting deadline on streams: " ++
          stringsJoin ((setDeadlineEach net t mcon.upstreams w).1.filterMap (fun c => c.err)) "; ")) ∧
      (∀ c ∈ (setDeadlineEach net t mcon.upstreams w).1, ∀ m, c.err = some m →
        ∃ pre post, "error seting deadline on streams: " ++
          stringsJoin ((setDeadlineEach net t mcon.upstreams w).1.filterMap (fun c => c.err)) "; " = pre ++ m ++ post)) := by
  obtain ⟨h1, h2, h3⟩ := SetDeadline_spec net mcon t w
  have hiff := filterMap_length_pos_iff (fun c : DeadlineCall => c.err) (setDeadlineEach net t mcon.upstreams w).1
  refine ⟨h1, h2, callEach_map _ _ (fun c : DeadlineCall => c.conn) (fun _ _ => rfl) _ _,
    ?_, ?_, ?_⟩
  · rw [← hiff, h3]
    split <;> simp_all
  · intro hex
    rw [h3, if_pos (hiff.mpr hex)]
  · intro c hc m hm
    exact prefixed_join_contains _ "; " m _ (List.mem_filterMap.mpr ⟨c, hc, hm⟩)

/-- The method SetReadDeadline fails exactly when the setter of some upstream does, with
the joined messages. -/
theorem SetReadDeadline_error_iff {σ : Type} (net : Net σ) (mcon : MultiConn) (t : Time) (w : σ) :
    ((mcon.SetReadDeadline net t w).calls = (setReadDeadlineEach net t mcon.upstreams w).1 ∧
      (mcon.SetReadDeadline net t w).world = (setReadDeadlineEach net t mcon.upstreams w).2 ∧
      (setReadDeadlineEach net t mcon.upstreams w).1.map (fun c => c.conn) = mcon.upstreams ∧
      ((mcon.SetReadDeadline net t w).err ≠ none ↔ ∃ c ∈ (setReadDeadlineEach net t mcon.upstreams w).1, c.err ≠ none) ∧
      ((∃ c ∈ (setReadDeadlineEach net t mcon.upstreams w).1, c.err ≠ none) →
        (mcon.SetReadDeadline net t w).err = some ("error setting read deadline on upstreams: " ++
          stringsJoin ((setReadDeadlineEach net t mcon.upstreams w).1.filterMap (fun c => c.err)) "; ")) ∧
      (∀ c ∈ (setReadDeadlineEach net t mcon.upstreams w).1, ∀ m, c.err = some m →
        ∃ pre post, "error setting read deadline on upstreams: " ++
          stringsJoin ((setReadDeadlineEach net t mcon.upstreams w).1.filterMap (fun c => c.err)) "; " = pre ++ m ++ post)) := by
  obtain ⟨h1, h2, h3⟩ := SetReadDeadline_spec net mcon t w
  have hiff := filterMap_length_pos_iff (fun c : DeadlineCall => c.err) (setReadDeadlineEach net t mcon.upstreams w).1
  refine ⟨h1, h2, callEach_map _ _ (fun c : DeadlineCall => c.conn) (fun _ _ => rfl) _ _,
    ?_, ?_, ?_⟩
  · rw [← hiff, h3]
    split <;> simp_all
  · intro hex
    rw [h3, if_pos (hiff.mpr hex)]
  · intro c hc m hm
    exact prefixed_join_contains _ "; " m _ (List.mem_filterMap.mpr ⟨c, hc, hm⟩)

/-- The method SetWriteDeadline fails exactly when the setter of some upstream does, with
the joined messages. -/
theorem SetWriteDeadline_error_iff {σ : Type} (net : Net σ) (mcon : MultiConn) (t : Time) (w : σ) :
    ((mcon.SetWriteDeadline net t w).calls = (setWriteDeadlineEach net t mcon.upstreams w).1 ∧
      (mcon.SetWriteDeadline net t w).world = (setWriteDeadlineEach net t mcon.upstreams w).2 ∧
      (setWriteDeadlineEach net t mcon.upstreams w).1.map (fun c => c.conn) = mcon.upstreams ∧
      ((mcon.SetWriteDeadline net t w).err ≠ none ↔ ∃ c ∈ (setWriteDeadlineEach net t mcon.upstreams w).1, c.err ≠ none) ∧
      ((∃ c ∈ (setWriteDeadlineEach net t mcon.upstreams w).1, c.err ≠ none) →
        (mcon.SetWriteDeadline net t w).err = some ("error setting wriet deadline on upstreams: " ++
          stringsJoin ((setWriteDeadlineEach net t mcon.upstreams w).1.filterMap (fun c => c.err)) "; ")) ∧
      (∀ c ∈ (setWriteDeadlineEach net t mcon.upstreams w).1, ∀ m, c.err = some m →
        ∃ pre post, "error setting wriet deadline on upstreams: " ++
          stringsJoin ((setWriteDeadlineEach net t mcon.upstreams w).1.filterMap (fun c => c.err)) "; " = pre ++ m ++ post)) := by
  obtain ⟨h1, h2, h3⟩ := SetWriteDeadline_spec net mcon t w
  have hiff := filterMap_length_pos_iff (fun c : DeadlineCall => c.err) (setWriteDeadlineEach net t mcon.upstreams w).1
  refine ⟨h1, h2, callEach_map _ _ (fun c : DeadlineCall => c.conn) (fun _ _ => rfl) _ _,
    ?_, ?_, ?_⟩
  · rw [← hiff, h3]
    split <;> simp_all
  · intro hex
    rw [h3, if_pos (hiff.mpr hex)]
  · intro c hc m hm
    exact prefixed_join_contains _ "; " m _ (List.mem_filterMap.mpr ⟨c, hc, hm⟩)

/-! ## Deadlines: the claim -/

/-- C5: each of SetDeadline, SetReadDeadline and SetWriteDeadline asks every
upstream once, in upstream order, to apply the deadline, and returns an error
exactly when some upstream answered with one; the text of the error is then
the fixed opening of the method followed by the messages of all upstreams that
failed, in upstream order, joined by "; ", so the message of every failed
upstream occurs in it. -/
theorem deadline_error_iff_some_upstream_failed {σ : Type} (net : Net σ) (mcon : MultiConn)
    (t : Time) (w : σ) :
    ((mcon.SetDeadline net t w).calls = (setDeadlineEach net t mcon.upstreams w).1 ∧
      (mcon.SetDeadline net t w).world = (setDeadlineEach net t mcon.upstreams w).2 ∧
      (setDeadlineEach net t mcon.upstreams w).1.map (fun c => c.conn) = mcon.upstreams ∧
      ((mcon.SetDeadline net t w).err ≠ none ↔ ∃ c ∈ (setDeadlineEach net t mcon.upstreams w).1, c.err ≠ none) ∧
      ((∃ c ∈ (setDeadlineEach net t mcon.upstreams w).1, c.err ≠ none) →
        (mcon.SetDeadline net t w).err = some ("error seting deadline on streams: " ++
          stringsJoin ((setDeadlineEach net t mcon.upstreams w).1.filterMap (fun c => c.err)) "; ")) ∧
      (∀ c ∈ (setDeadlineEach net t mcon.upstreams w).1, ∀ m, c.err = some m →
        ∃ pre post, "error seting deadline on streams: " ++
          stringsJoin ((setDeadlineEach net t mcon.upstreams w).1.filterMap (fun c => c.err)) "; " = pre ++ m ++ post)) ∧
    ((mcon.SetReadDeadline net t w).calls = (setReadDeadlineEach net t mcon.upstreams w).1 ∧
      (mcon.SetReadDeadline net t w).world = (setReadDeadlineEach net t mcon.upstreams w).2 ∧
      (setReadDeadlineEach net t mcon.upstreams w).1.map (fun c => c.conn) = mcon.upstreams ∧
      ((mcon.SetReadDeadline net t w).err ≠ none ↔ ∃ c ∈ (setReadDeadlineEach net t mcon.upstreams w).1, c.err ≠ none) ∧
      ((∃ c ∈ (setReadDeadlineEach net t mcon.upstreams w).1, c.err ≠ none) →
        (mcon.SetReadDeadline net t w).err = some ("error setting read deadline on upstreams: " ++
          stringsJoin ((setReadDeadlineEach net t mcon.upstreams w).1.filterMap (fun c => c.err)) "; ")) ∧
      (∀ c ∈ (setReadDeadlineEach net t mcon.upstreams w).1, ∀ m, c.err = some m →
        ∃ pre post, "error setting read deadline on upstreams: " ++
          stringsJoin ((setReadDeadlineEach net t mcon.upstreams w).1.filterMap (fun c => c.err)) "; " = pre ++ m ++ post)) ∧
    ((mcon.SetWriteDeadline net t w).calls = (setWriteDeadlineEach net t mcon.upstreams w).1 ∧
      (mcon.SetWriteDeadline net t w).world = (setWriteDeadlineEach net t mcon.upstreams w).2 ∧
      (setWriteDeadlineEach net t mcon.upstreams w).1.map (fun c => c.conn) = mcon.upstreams ∧
      ((mcon.SetWriteDeadline net t w).err ≠ none ↔ ∃ c ∈ (setWriteDeadlineEach net t mcon.upstreams w).1, c.err ≠ none) ∧
      ((∃ c ∈ (setWriteDeadlineEach net t mcon.upstreams w).1, c.err ≠ none) →
        (mcon.SetWriteDeadline net t w).err = some ("error setting wriet deadline on upstreams: " ++
          stringsJoin ((setWriteDeadlineEach net t mcon.upstreams w).1.filterMap (fun c => c.err)) "; ")) ∧
      (∀ c ∈ (setWriteDeadlineEach net t mcon.upstreams w).1, ∀ m, c.err = some m →
        ∃ pre post, "error setting wriet deadline on upstreams: " ++
          stringsJoin ((setWriteDeadlineEach net t mcon.upstreams w).1.filterMap (fun c => c.err)) "; " = pre ++ m ++ post)) :=
  ⟨SetDeadline_error_iff net mcon t w, SetReadDeadline_error_iff net mcon t w,
    SetWriteDeadline_error_iff net mcon t w⟩

/-- C5 at the scenario of the specification: two upstreams that both reject
SetDeadline with "deadline exceeded"; and at three upstreams of which one
rejects the read deadline. -/
theorem deadline_error_iff_some_upstream_failed_witness :
    (setDeadlineEach lateNet 5 [0, 1] ()).1 =
      [{ conn := 0, t := 5, err := some "deadline exceeded" },
       { conn := 1, t := 5, err := some "deadline exceeded" }] ∧
    (MultiConn.SetDeadline lateNet { upstreams := [0, 1] } 5 ()).err =
      some "error seting deadline on streams: deadline exceeded; deadline exceeded" ∧
    (MultiConn.SetReadDeadline oneLateNet { upstreams := [0, 1, 2] } 5 ()).err =
      some "error setting read deadline on upstreams: deadline exceeded" ∧
    (MultiConn.SetWriteDeadline oneLateNet { upstreams := [0, 2] } 5 ()).err = none :=
  ⟨by decide,
    ((deadline_error_iff_some_upstream_failed lateNet { upstreams := [0, 1] } 5 ()).1.2.2.2.2.1
      (by decide)).trans (by decide),
    ((deadline_error_iff_some_upstream_failed oneLateNet
      { upstreams := [0, 1, 2] } 5 ()).2.1.2.2.2.2.1 (by decide)).trans (by decide),
    by
      have h := (deadline_error_iff_some_upstream_failed oneLateNet
        { upstreams := [0, 2] } 5 ()).2.2.2.2.2.1
      exact not_not.mp (fun hne => absurd (h.mp hne) (by decide))⟩

/-! ## Close -/

/-- One turn of the loop of Close. -/
theorem closeLoop_cons {σ : Type} (net : Net σ) (conn : Conn) (rest : List Conn)
    (s : CloseLoop σ) :
    closeLoop net (conn :: rest) s = closeLoop net rest
      { world := (net.Close conn s.world).2
        errs := s.errs ++ (net.Close conn s.world).1.toList
        calls := s.calls ++ [{ conn := conn, err := (net.Close conn s.world).1 }] } := by
  rw [closeLoop]
  generalize net.Close conn s.world = r
  obtain ⟨err, w⟩ := r
  cases err <;> simp

/-- The loop of Close against the reference: the calls it makes are those of
the reference, it leaves the world the reference leaves, and it collects the
messages of the failed calls. -/
theorem closeLoop_run {σ : Type} (net : Net σ) :
    ∀ (ups : List Conn) (s : CloseLoop σ),
      (closeLoop net ups s).calls = s.calls ++ (closeEach net ups s.world).1 ∧
      (closeLoop net ups s).world = (closeEach net ups s.world).2 ∧
      (closeLoop net ups s).errs =
        s.errs ++ (closeEach net ups s.world).1.filterMap (fun c => c.err)
  | [], s => by simp [closeLoop, closeEach, callEach]
  | conn :: rest, s => by
    obtain ⟨h1, h2, h4⟩ := closeLoop_run net rest
      { world := (net.Close conn s.world).2
        errs := s.errs ++ (net.Close conn s.world).1.toList
        calls := s.calls ++ [{ conn := conn, err := (net.Close conn s.world).1 }] }
    unfold closeEach at h1 h2 h4 ⊢
    refine ⟨?_, ?_, ?_⟩
    · rw [closeLoop_cons, h1, callEach_cons]
      simp
    · rw [closeLoop_cons, h2, callEach_cons]
    · rw [closeLoop_cons, h4, callEach_cons]
      cases (net.Close conn s.world).1 <;> simp

/-- What Close returns and does, in terms of what the upstreams answer. -/
theorem Close_spec {σ : Type} (net : Net σ) (mcon : MultiConn) (w : σ) :
    (mcon.Close net w).calls = (closeEach net mcon.upstreams w).1 ∧
    (mcon.Close net w).world = (closeEach net mcon.upstreams w).2 ∧
    (mcon.Close net w).err =
      (if 0 < ((closeEach net mcon.upstreams w).1.filterMap (fun c => c.err)).length
        then some ("error closing upstreams: " ++
          stringsJoin ((closeEach net mcon.upstreams w).1.filterMap (fun c => c.err)) "; ")
        else none) := by
  obtain ⟨h1, h2, h4⟩ := closeLoop_run net mcon.upstreams
    { world := w, errs := [], calls := [] }
  simp only [List.nil_append] at h1 h2 h4
  unfold MultiConn.Close
  simp only [h1, h2, h4]
  split <;> simp_all

/-- C6: one call of Close closes every upstream exactly once, in upstream
order, whatever the earlier upstreams answered: its calls are those of the
reference and it leaves the world that one Close for each upstream, in this
order, leaves. It returns an error exactly when some upstream answered its
Close with one, and the text of the error is then "error closing upstreams: "
followed by the messages of all upstreams that failed, joined by "; ", so the
message of every failed upstream occurs in it. -/
theorem Close_closes_every_upstream_once {σ : Type} (net : Net σ) (mcon : MultiConn) (w : σ) :
    (mcon.Close net w).calls = (closeEach net mcon.upstreams w).1 ∧
    (mcon.Close net w).world = (closeEach net mcon.upstreams w).2 ∧
    (closeEach net mcon.upstreams w).1.map (fun c => c.conn) = mcon.upstreams ∧
    ((mcon.Close net w).err ≠ none ↔
      ∃ c ∈ (closeEach net mcon.upstreams w).1, c.err ≠ none) ∧
    ((∃ c ∈ (closeEach net mcon.upstreams w).1, c.err ≠ none) →
      (mcon.Close net w).err = some ("error closing upstreams: " ++
        stringsJoin ((closeEach net mcon.upstreams w).1.filterMap (fun c => c.err)) "; ")) ∧
    (∀ c ∈ (closeEach net mcon.upstreams w).1, ∀ m, c.err = some m →
      ∃ pre post, "error closing upstreams: " ++
        stringsJoin ((closeEach net mcon.upstreams w).1.filterMap (fun c => c.err)) "; " =
          pre ++ m ++ post) := by
  obtain ⟨h1, h2, h3⟩ := Close_spec net mcon w
  have hiff := filterMap_length_pos_iff (fun c : CloseCall => c.err)
    (closeEach net mcon.upstreams w).1
  refine ⟨h1, h2, callEach_map _ _ (fun c : CloseCall => c.conn) (fun _ _ => rfl) _ _,
    ?_, ?_, ?_⟩
  · rw [← hiff, h3]
    split <;> simp_all
  · intro hex
    rw [h3, if_pos (hiff.mpr hex)]
  · intro c hc m hm
    exact prefixed_join_contains _ "; " m _ (List.mem_filterMap.mpr ⟨c, hc, hm⟩)

/-- C6 at three upstreams of which the first is closed already: its Close
fails, the other two are closed all the same, each once, and the error carries
the message; closing a second time fails on all three. -/
theorem Close_closes_every_upstream_once_witness :
    (closeEach closingNet [4, 7, 9] [4]).1 =
      [{ conn := 4, err := some "close 4: already closed" },
       { conn := 7, err := none }, { conn := 9, err := none }] ∧
    (MultiConn.Close closingNet { upstreams := [4, 7, 9] } [4]).calls =
      [{ conn := 4, err := some "close 4: already closed" },
       { conn := 7, err := none }, { conn := 9, err := none }] ∧
    (MultiConn.Close closingNet { upstreams := [4, 7, 9] } [4]).world = [9, 7, 4] ∧
    (MultiConn.Close closingNet { upstreams := [4, 7, 9] } [4]).err =
      some "error closing upstreams: close 4: already closed" ∧
    (MultiConn.Close closingNet { upstreams := [4, 7, 9] } [9, 7, 4]).err =
      some ("error closing upstreams: " ++
        "close 4: already closed; close 7: already closed; close 9: already closed") :=
  ⟨by decide,
    (Close_closes_every_upstream_once closingNet { upstreams := [4, 7, 9] } [4]).1.trans
      (by decide),
    (Close_closes_every_upstream_once closingNet { upstreams := [4, 7, 9] } [4]).2.1.trans
      (by decide),
    ((Close_closes_every_upstream_once closingNet { upstreams := [4, 7, 9] } [4]).2.2.2.2.1
      (by decide)).trans (by decide),
    ((Close_closes_every_upstream_once closingNet
      { upstreams := [4, 7, 9] } [9, 7, 4]).2.2.2.2.1 (by decide)).trans (by decide)⟩

/-! ## MultiDialTimeout -/

/-- One turn of the loop of MultiDialTimeout. -/
theorem dialLoop_cons {σ : Type} (net : Net σ) (proto : String) (timeout : Time)
    (address : String) (rest : List String) (s : DialLoop σ) :
    dialLoop net proto timeout (address :: rest) s = dialLoop net proto timeout rest
      { world := (net.DialTimeout proto address timeout s.world).2
        upstreams := s.upstreams ++
          (DialCall.conn? { proto := proto, address := address, timeout := timeout
                            result := (net.DialTimeout proto address timeout s.world).1 }).toList
        log := s.log ++
          (match (net.DialTimeout proto address timeout s.world).1 with
            | .error err => ["can't connect to " ++ address ++ ": " ++ err]
            | .ok _ => [])
        calls := s.calls ++ [{ proto := proto, address := address, timeout := timeout
                               result := (net.DialTimeout proto address timeout s.world).1 }] } := by
  rw [dialLoop]
  generalize net.DialTimeout proto address timeout s.world = r
  obtain ⟨result, w⟩ := r
  cases result <;> simp [DialCall.conn?]

/-- The loop of MultiDialTimeout against the reference: the dials it makes are
those of the reference, it leaves the world the reference leaves, and it
appends the connections of the dials that succeeded. -/
theorem dialLoop_run {σ : Type} (net : Net σ) (proto : String) (timeout : Time) :
    ∀ (addresses : List String) (s : DialLoop σ),
      (dialLoop net proto timeout addresses s).calls =
        s.calls ++ (dialEach net proto timeout addresses s.world).1 ∧
      (dialLoop net proto timeout addresses s).world =
        (dialEach net proto timeout addresses s.world).2 ∧
      (dialLoop net proto timeout addresses s).upstreams =
        s.upstreams ++ (dialEach net proto timeout addresses s.world).1.filterMap DialCall.conn?
  | [], s => by simp [dialLoop, dialEach, callEach]
  | address :: rest, s => by
    obtain ⟨h1, h2, h4⟩ := dialLoop_run net proto timeout rest
      { world := (net.DialTimeout proto address timeout s.world).2
        upstreams := s.upstreams ++
          (DialCall.conn? { proto := proto, address := address, timeout := timeout
                            result := (net.DialTimeout proto address timeout s.world).1 }).toList
        log := s.log ++
          (match (net.DialTimeout proto address timeout s.world).1 with
            | .error err => ["can't connect to " ++ address ++ ": " ++ err]
            | .ok _ => [])
        calls := s.calls ++ [{ proto := proto, address := address, timeout := timeout
                               result := (net.DialTimeout proto address timeout s.world).1 }] }
    unfold dialEach at h1 h2 h4 ⊢
    refine ⟨?_, ?_, ?_⟩
    · rw [dialLoop_cons, h1, callEach_cons]
      simp
    · rw [dialLoop_cons, h2, callEach_cons]
    · rw [dialLoop_cons, h4, callEach_cons, List.filterMap_cons]
      cases hc : DialCall.conn? { proto := proto, address := address, timeout := timeout
                                  result := (net.DialTimeout proto address timeout s.world).1 } <;>
        simp

/-- The connections of the dials that succeeded are as many as these dials. -/
theorem length_filterMap_conn? :
    ∀ l : List DialCall,
      (l.filterMap DialCall.conn?).length = (l.filter (fun d => d.conn?.isSome)).length
  | [] => rfl
  | d :: rest => by
    have ih := length_filterMap_conn? rest
    cases hd : d.conn? <;> simp [List.filterMap_cons, List.filter_cons, hd, ih]

/-- C8: MultiDialTimeout dials every address once, in the order of the
addresses and with the protocol and timeout it was given: its dials are those
of the reference and it leaves the world they leave. The upstreams of the
adapter it returns are exactly the connections the dialer answered with, in
that order, as many as dials succeeded; and the error it returns is nil, also
when no dial succeeded. -/
theorem MultiDialTimeout_keeps_dialed_in_order {σ : Type} (net : Net σ) (proto : String)
    (addresses : List String) (timeout : Time) (w : σ) :
    (MultiDialTimeout net proto addresses timeout w).err = none ∧
    (MultiDialTimeout net proto addresses timeout w).calls =
      (dialEach net proto timeout addresses w).1 ∧
    (MultiDialTimeout net proto addresses timeout w).world =
      (dialEach net proto timeout addresses w).2 ∧
    (dialEach net proto timeout addresses w).1.map (fun d => d.address) = addresses ∧
    (MultiDialTimeout net proto addresses timeout w).mcon.upstreams =
      (dialEach net proto timeout addresses w).1.filterMap DialCall.conn? ∧
    (MultiDialTimeout net proto addresses timeout w).mcon.upstreams.length =
      ((dialEach net proto timeout addresses w).1.filter (fun d => d.conn?.isSome)).length := by
  obtain ⟨h1, h2, h4⟩ := dialLoop_run net proto timeout addresses
    { world := w, upstreams := [], log := [], calls := [] }
  simp only [List.nil_append] at h1 h2 h4
  have hup : (MultiDialTimeout net proto addresses timeout w).mcon.upstreams =
      (dialEach net proto timeout addresses w).1.filterMap DialCall.conn? := h4
  refine ⟨rfl, h1, h2,
    callEach_map _ _ (fun d : DialCall => d.address) (fun _ _ => rfl) _ _, hup, ?_⟩
  rw [hup, length_filterMap_conn?]

/-- C8 at the scenario of the specification: of the addresses A, B and C the
second refuses the connection; the adapter has the connections of A and C, in
this order, no error is returned and the log counts 2 of 3. With no address
dialable the adapter has no upstream and the error is nil all the same. -/
theorem MultiDialTimeout_keeps_dialed_in_order_witness :
    (dialEach dialNet "udp" 1000 ["A", "B", "C"] 0).1.map (fun d => (d.address, d.conn?)) =
      [("A", some 0), ("B", none), ("C", some 1)] ∧
    (MultiDialTimeout dialNet "udp" ["A", "B", "C"] 1000 0).mcon.upstreams = [0, 1] ∧
    (MultiDialTimeout dialNet "udp" ["A", "B", "C"] 1000 0).world = 2 ∧
    (MultiDialTimeout dialNet "udp" ["A", "B", "C"] 1000 0).err = none ∧
    (MultiDialTimeout dialNet "udp" ["A", "B", "C"] 1000 0).log =
      ["can't connect to B: connection refused", "only 2 of 3 upstreams connected"] ∧
    (MultiDialTimeout dialNet "udp" ["B", "B"] 1000 0).mcon.upstreams = [] ∧
    (MultiDialTimeout dialNet "udp" ["B", "B"] 1000 0).err = none :=
  ⟨by decide,
    (MultiDialTimeout_keeps_dialed_in_order dialNet "udp"
      ["A", "B", "C"] 1000 0).2.2.2.2.1.trans (by decide),
    (MultiDialTimeout_keeps_dialed_in_order dialNet "udp"
      ["A", "B", "C"] 1000 0).2.2.1.trans (by decide),
    (MultiDialTimeout_keeps_dialed_in_order dialNet "udp" ["A", "B", "C"] 1000 0).1,
    by decide,
    (MultiDialTimeout_keeps_dialed_in_order dialNet "udp" ["B", "B"] 1000 0).2.2.2.2.1.trans
      (by decide),
    (MultiDialTimeout_keeps_dialed_in_order dialNet "udp" ["B", "B"] 1000 0).1⟩

/-! ## LocalAddr and RemoteAddr -/

/-- C9: on an adapter with at least one upstream LocalAddr and RemoteAddr
return what the first upstream returns, without a fault; either of them faults
(indexing out of range) exactly when the adapter has no upstream. -/
theorem addr_of_first_upstream {σ : Type} (net : Net σ) (w : σ) :
    (∀ (conn : Conn) (rest : List Conn),
      MultiConn.LocalAddr net { upstreams := conn :: rest } w = .ok (net.LocalAddr conn w) ∧
      MultiConn.RemoteAddr net { upstreams := conn :: rest } w = .ok (net.RemoteAddr conn w)) ∧
    (∀ mcon : MultiConn,
      ((∃ p, mcon.LocalAddr net w = .error p) ↔ mcon.upstreams = []) ∧
      ((∃ p, mcon.RemoteAddr net w = .error p) ↔ mcon.upstreams = []) ∧
      (mcon.upstreams = [] →
        mcon.LocalAddr net w = .error (.indexOutOfRange 0 0) ∧
        mcon.RemoteAddr net w = .error (.indexOutOfRange 0 0))) := by
  refine ⟨fun conn rest => by simp [MultiConn.LocalAddr, MultiConn.RemoteAddr], fun mcon => ?_⟩
  obtain ⟨ups⟩ := mcon
  cases ups with
  | nil => simp [MultiConn.LocalAddr, MultiConn.RemoteAddr]
  | cons conn rest => simp [MultiConn.LocalAddr, MultiConn.RemoteAddr]

/-- C9 on the adapter dialed from the addresses A, B and C, of which B refuses
the connection: the addresses are those of the connection of A. -/
theorem addr_of_first_upstream_witness :
    MultiConn.LocalAddr dialNet (MultiDialTimeout dialNet "udp" ["A", "B", "C"] 1000 0).mcon 2 =
      .ok ("local 0", 2) ∧
    MultiConn.RemoteAddr dialNet (MultiDialTimeout dialNet "udp" ["A", "B", "C"] 1000 0).mcon 2 =
      .ok ("remote 0", 2) ∧
    MultiConn.LocalAddr dialNet (MultiDialTimeout dialNet "udp" ["B"] 1000 0).mcon 0 =
      .error (.indexOutOfRange 0 0) :=
  ⟨((addr_of_first_upstream dialNet 2).1 0 [1]).1.trans rfl,
    ((addr_of_first_upstream dialNet 2).1 0 [1]).2.trans rfl,
    (((addr_of_first_upstream dialNet 0).2
      (MultiDialTimeout dialNet "udp" ["B"] 1000 0).mcon).2.2 (by decide)).1⟩

end Statsdaemon
